import Mathlib

/-!
Shallow embedding of `src/neopixel.py`, a simulated Adafruit NeoPixel
strip.  Packed colors are natural numbers, the display snapshot is a list
of RGB triples, and the wx viewer thread is abstracted to the single bit
of state the buffer operations can observe: whether `begin()` has created
`self._sim`.
-/

namespace NeoSim

/-- Python errors the embedded operations can surface: `IndexError` from
list indexing and `AttributeError` from touching `self._sim` before
`begin()` has set it. -/
inductive PyErr where
  | indexOutOfRange
  | attributeError
deriving DecidableEq

/-- Packs color values into a 32-bit integer, after
`Color(red, green, blue, white=0)`:
`(white << 24) | (red << 16) | (green << 8) | blue`. -/
def Color (red green blue white : Nat) : Nat :=
  (white <<< 24) ||| (red <<< 16) ||| (green <<< 8) ||| blue

/-- Decode applied by `show()` to every buffer entry:
`wx.Colour((c >> 16) & 0xff, (c >> 8) & 0xff, c & 0xff)`. -/
def decodeColor (c : Nat) : Nat × Nat × Nat :=
  ((c >>> 16) &&& 0xff, (c >>> 8) &&& 0xff, c &&& 0xff)

/-- Python list-index resolution: a nonnegative index must be below the
length, a negative index counts from the end of the list; `none` means
the access raises `IndexError`. -/
def pyIndex (length : Nat) (n : Int) : Option Nat :=
  if 0 ≤ n then
    if n < (length : Int) then some n.toNat else none
  else
    if 0 ≤ n + (length : Int) then some (n + (length : Int)).toNat else none

/-- State of an `Adafruit_NeoPixel` object: the raw packed-color buffer
`self._buffer`, the published snapshot `self._displayed`, and whether
`begin()` has created `self._sim`. -/
structure Adafruit_NeoPixel where
  buffer : List Nat
  displayed : List (Nat × Nat × Nat)
  simStarted : Bool
deriving DecidableEq

namespace Adafruit_NeoPixel

/-- Constructor `__init__(num, *args)`: `num` pixels initialized to the
packed color 0 and an equal-length snapshot of black `wx.Colour(0,0,0)`. -/
def init (num : Nat) : Adafruit_NeoPixel :=
  { buffer := List.replicate num 0
    displayed := List.replicate num (0, 0, 0)
    simStarted := false }

/-- Models `begin()`: starts the simulation, creating `self._sim`. -/
def begin (s : Adafruit_NeoPixel) : Adafruit_NeoPixel :=
  { s with simStarted := true }

/-- Models `show()`: replaces `_displayed` wholesale with the decoded
buffer, then calls `self._sim.update()`, which raises `AttributeError`
when `begin()` was never called.  The snapshot has already been replaced
when that failure surfaces, so the new state is returned on both paths. -/
def «show» (s : Adafruit_NeoPixel) : Adafruit_NeoPixel × Except PyErr Unit :=
  let s' := { s with displayed := s.buffer.map decodeColor }
  (s', if s.simStarted then Except.ok () else Except.error PyErr.attributeError)

/-- Models `setPixelColor(n, color)`: `self._buffer[n] = color`. -/
def setPixelColor (s : Adafruit_NeoPixel) (n : Int) (color : Nat) :
    Except PyErr Adafruit_NeoPixel :=
  match pyIndex s.buffer.length n with
  | some i => Except.ok { s with buffer := s.buffer.set i color }
  | none => Except.error PyErr.indexOutOfRange

/-- Models `setPixelColorRGB(n, red, green, blue, white=0)`:
`self.setPixelColor(n, Color(red, green, blue, white))`. -/
def setPixelColorRGB (s : Adafruit_NeoPixel) (n : Int)
    (red green blue white : Nat) : Except PyErr Adafruit_NeoPixel :=
  setPixelColor s n (Color red green blue white)

/-- Models `getPixels()`: the raw buffer. -/
def getPixels (s : Adafruit_NeoPixel) : List Nat :=
  s.buffer

/-- Models `numPixels()`: `len(self._buffer)`. -/
def numPixels (s : Adafruit_NeoPixel) : Nat :=
  s.buffer.length

/-- Models `getPixelColor(n)`: `return self._buffer[n]`. -/
def getPixelColor (s : Adafruit_NeoPixel) (n : Int) : Except PyErr Nat :=
  match pyIndex s.buffer.length n with
  | some i => Except.ok (s.buffer.getD i 0)
  | none => Except.error PyErr.indexOutOfRange

/-- Models `getDisplayed()`: the published snapshot. -/
def getDisplayed (s : Adafruit_NeoPixel) : List (Nat × Nat × Nat) :=
  s.displayed

end Adafruit_NeoPixel

/-- One public API call, for reasoning about arbitrary call sequences. -/
inductive Op where
  | beginOp
  | showOp
  | setPixelColorOp (n : Int) (color : Nat)
  | setPixelColorRGBOp (n : Int) (red green blue white : Nat)
  | getPixelColorOp (n : Int)
  | getDisplayedOp

/-- State after one call: reads leave the state alone; a mutator that
raises `IndexError` leaves the state unchanged; `show()` replaces the
snapshot even on its error path. -/
def applyOp (s : Adafruit_NeoPixel) (op : Op) : Adafruit_NeoPixel :=
  match op with
  | Op.beginOp => s.begin
  | Op.showOp => (Adafruit_NeoPixel.«show» s).1
  | Op.setPixelColorOp n c =>
      match s.setPixelColor n c with
      | Except.ok s' => s'
      | Except.error _ => s
  | Op.setPixelColorRGBOp n r g b w =>
      match s.setPixelColorRGB n r g b w with
      | Except.ok s' => s'
      | Except.error _ => s
  | Op.getPixelColorOp _ => s
  | Op.getDisplayedOp => s

/-- State after a sequence of calls. -/
def run (s : Adafruit_NeoPixel) (ops : List Op) : Adafruit_NeoPixel :=
  ops.foldl applyOp s

example :
    Adafruit_NeoPixel.getDisplayed
      (run (Adafruit_NeoPixel.init 3)
        [Op.setPixelColorRGBOp 0 255 0 0 0, Op.setPixelColorRGBOp 1 0 255 0 0,
         Op.setPixelColorRGBOp 2 0 0 255 0, Op.showOp])
      = [(255, 0, 0), (0, 255, 0), (0, 0, 255)] := by
  decide

example : (Adafruit_NeoPixel.init 2).setPixelColor (-1) 7
    = Except.ok { buffer := [0, 7], displayed := [(0,0,0), (0,0,0)], simStarted := false } :=
  rfl

/-! ## Helper lemmas -/

theorem pyIndex_nonneg {L : Nat} {n : Int} (h0 : 0 ≤ n) (hL : n < (L : Int)) :
    pyIndex L n = some n.toNat := by
  unfold pyIndex
  rw [if_pos h0, if_pos hL]

theorem pyIndex_neg {L : Nat} {n : Int} (h0 : n < 0) (hL : 0 ≤ n + (L : Int)) :
    pyIndex L n = some (n + (L : Int)).toNat := by
  unfold pyIndex
  rw [if_neg (by omega), if_pos hL]

theorem pyIndex_none {L : Nat} {n : Int}
    (h : n < -(L : Int) ∨ (L : Int) ≤ n) : pyIndex L n = none := by
  unfold pyIndex
  rcases h with h | h
  · rw [if_neg (by omega), if_neg (by omega)]
  · rw [if_pos (by omega), if_neg (by omega)]

theorem setPixelColor_ok {s s' : Adafruit_NeoPixel} {n : Int} {c : Nat}
    (h : s.setPixelColor n c = Except.ok s') :
    ∃ i, pyIndex s.buffer.length n = some i
      ∧ s' = { s with buffer := s.buffer.set i c } := by
  unfold Adafruit_NeoPixel.setPixelColor at h
  cases hp : pyIndex s.buffer.length n with
  | some i =>
    rw [hp] at h
    exact ⟨i, rfl, (Except.ok.inj h).symm⟩
  | none =>
    rw [hp] at h
    cases h

theorem Color_eq_add {red green blue : Nat} (white : Nat)
    (hr : red < 2^8) (hg : green < 2^8) (hb : blue < 2^8) :
    Color red green blue white
      = 2^24 * white + (2^16 * red + (2^8 * green + blue)) := by
  have hgb : 2^8 * green + blue < 2^16 := by omega
  have hrgb : 2^16 * red + (2^8 * green + blue) < 2^24 := by omega
  unfold Color
  rw [Nat.lor_assoc, Nat.lor_assoc, Nat.shiftLeft_eq, Nat.shiftLeft_eq,
    Nat.shiftLeft_eq, Nat.mul_comm white, Nat.mul_comm red, Nat.mul_comm green,
    ← Nat.mul_add_lt_is_or hb green, ← Nat.mul_add_lt_is_or hgb red,
    ← Nat.mul_add_lt_is_or hrgb white]

theorem decodeColor_Color {red green blue : Nat} (white : Nat)
    (hr : red ≤ 255) (hg : green ≤ 255) (hb : blue ≤ 255) :
    decodeColor (Color red green blue white) = (red, green, blue) := by
  have h : Color red green blue white
      = 2^24 * white + (2^16 * red + (2^8 * green + blue)) :=
    Color_eq_add white (by omega) (by omega) (by omega)
  have hff : (0xff : Nat) = 2^8 - 1 := by norm_num
  unfold decodeColor
  rw [h, hff, Nat.and_pow_two_sub_one_eq_mod, Nat.and_pow_two_sub_one_eq_mod,
    Nat.and_pow_two_sub_one_eq_mod, Nat.shiftRight_eq_div_pow,
    Nat.shiftRight_eq_div_pow]
  refine Prod.ext ?_ (Prod.ext ?_ ?_) <;> simp <;> omega

theorem applyOp_buffer_length (s : Adafruit_NeoPixel) (op : Op) :
    (applyOp s op).buffer.length = s.buffer.length := by
  cases op with
  | setPixelColorOp n c =>
    show (match s.setPixelColor n c with
      | Except.ok s' => s'
      | Except.error _ => s).buffer.length = s.buffer.length
    split
    · rename_i s' h
      obtain ⟨i, _, hs'⟩ := setPixelColor_ok h
      simp [hs']
    · rfl
  | setPixelColorRGBOp n r g b w =>
    show (match s.setPixelColor n (Color r g b w) with
      | Except.ok s' => s'
      | Except.error _ => s).buffer.length = s.buffer.length
    split
    · rename_i s' h
      obtain ⟨i, _, hs'⟩ := setPixelColor_ok h
      simp [hs']
    · rfl
  | beginOp => rfl
  | showOp => rfl
  | getPixelColorOp n => rfl
  | getDisplayedOp => rfl

theorem run_buffer_length (s : Adafruit_NeoPixel) (ops : List Op) :
    (run s ops).buffer.length = s.buffer.length := by
  induction ops generalizing s with
  | nil => rfl
  | cons op ops ih =>
    show (run (applyOp s op) ops).buffer.length = s.buffer.length
    rw [ih, applyOp_buffer_length]

theorem applyOp_displayed_length {s : Adafruit_NeoPixel} (op : Op)
    (h : s.displayed.length = s.buffer.length) :
    (applyOp s op).displayed.length = (applyOp s op).buffer.length := by
  cases op with
  | setPixelColorOp n c =>
    show (match s.setPixelColor n c with
        | Except.ok s' => s'
        | Except.error _ => s).displayed.length
      = (match s.setPixelColor n c with
        | Except.ok s' => s'
        | Except.error _ => s).buffer.length
    split
    · rename_i s' hc
      obtain ⟨i, _, hs'⟩ := setPixelColor_ok hc
      simpa [hs'] using h
    · exact h
  | setPixelColorRGBOp n r g b w =>
    show (match s.setPixelColor n (Color r g b w) with
        | Except.ok s' => s'
        | Except.error _ => s).displayed.length
      = (match s.setPixelColor n (Color r g b w) with
        | Except.ok s' => s'
        | Except.error _ => s).buffer.length
    split
    · rename_i s' hc
      obtain ⟨i, _, hs'⟩ := setPixelColor_ok hc
      simpa [hs'] using h
    · exact h
  | beginOp => exact h
  | showOp => simp [applyOp, Adafruit_NeoPixel.«show»]
  | getPixelColorOp n => exact h
  | getDisplayedOp => exact h

theorem run_displayed_length {s : Adafruit_NeoPixel} (ops : List Op)
    (h : s.displayed.length = s.buffer.length) :
    (run s ops).displayed.length = (run s ops).buffer.length := by
  induction ops generalizing s with
  | nil => exact h
  | cons op ops ih =>
    exact ih (applyOp_displayed_length op h)

/-! ## Claim theorems -/

/-- C1: for every buffer state and valid index `n`, `setPixelColor(n, c)`
and `setPixelColorRGB(n, r, g, b, w)` leave the value returned by
`getDisplayed()` unchanged; the snapshot only reflects such writes after
a subsequent `show()`, which replaces it with the decoded buffer. -/
theorem c1_writes_invisible_until_show
    (s s₁ s₂ : Adafruit_NeoPixel) (n : Int) (c red green blue white : Nat)
    (h₁ : s.setPixelColor n c = Except.ok s₁)
    (h₂ : s.setPixelColorRGB n red green blue white = Except.ok s₂) :
    s₁.getDisplayed = s.getDisplayed ∧ s₂.getDisplayed = s.getDisplayed ∧
    (Adafruit_NeoPixel.«show» s₁).1.getDisplayed = s₁.buffer.map decodeColor ∧
    (Adafruit_NeoPixel.«show» s₂).1.getDisplayed = s₂.buffer.map decodeColor := by
  obtain ⟨i, _, hs₁⟩ := setPixelColor_ok h₁
  obtain ⟨j, _, hs₂⟩ := setPixelColor_ok h₂
  subst hs₁
  subst hs₂
  exact ⟨rfl, rfl, rfl, rfl⟩

/-- Witness for C1 at the strip `init 2`, index 0. -/
theorem c1_witness :
    Adafruit_NeoPixel.getDisplayed
        { buffer := [5, 0], displayed := [(0,0,0),(0,0,0)], simStarted := false }
      = (Adafruit_NeoPixel.init 2).getDisplayed :=
  (c1_writes_invisible_until_show (Adafruit_NeoPixel.init 2)
    { buffer := [5, 0], displayed := [(0,0,0),(0,0,0)], simStarted := false }
    { buffer := [Color 1 2 3 4, 0], displayed := [(0,0,0),(0,0,0)], simStarted := false }
    0 5 1 2 3 4 rfl rfl).1

/-- C2: for channel values in `[0, 255]`, the decode used by `show()`
recovers exactly `(r, g, b)` from `Color(r, g, b, w)` (white is dropped),
and concretely `setPixelColor(i, Color(r, g, b, w))` followed by `show()`
makes entry `i` of `getDisplayed()` the color `(r, g, b)`. -/
theorem c2_decode_color_round_trip
    (red green blue white : Nat) (hr : red ≤ 255) (hg : green ≤ 255)
    (hb : blue ≤ 255) (_hw : white ≤ 255)
    (s s' : Adafruit_NeoPixel) (i : Nat) (hi : i < s.numPixels)
    (hset : s.setPixelColor (i : Int) (Color red green blue white) = Except.ok s') :
    decodeColor (Color red green blue white) = (red, green, blue) ∧
    ((Adafruit_NeoPixel.«show» s').1.getDisplayed)[i]? = some (red, green, blue) := by
  have hdec := decodeColor_Color white hr hg hb
  refine ⟨hdec, ?_⟩
  obtain ⟨j, hj, hs'⟩ := setPixelColor_ok hset
  rw [pyIndex_nonneg (by omega) (by exact_mod_cast hi)] at hj
  injection hj with hj
  subst hj
  subst hs'
  have hi' : i < s.buffer.length := hi
  show ((s.buffer.set (((i : Int)).toNat) (Color red green blue white)).map
    decodeColor)[i]? = some (red, green, blue)
  rw [Int.toNat_ofNat, List.getElem?_map, List.getElem?_set_self hi']
  show some (decodeColor (Color red green blue white)) = some (red, green, blue)
  rw [hdec]

/-- Witness for C2 at `r, g, b, w = 10, 20, 30, 40`, strip `init 1`. -/
theorem c2_witness :
    decodeColor (Color 10 20 30 40) = (10, 20, 30) ∧
    ((Adafruit_NeoPixel.«show»
      { buffer := [Color 10 20 30 40], displayed := [(0,0,0)],
        simStarted := false }).1.getDisplayed)[0]? = some (10, 20, 30) :=
  c2_decode_color_round_trip 10 20 30 40 (by decide) (by decide) (by decide)
    (by decide) (Adafruit_NeoPixel.init 1)
    { buffer := [Color 10 20 30 40], displayed := [(0,0,0)], simStarted := false }
    0 (by decide) rfl

/-- C5: `show()` is idempotent on an unchanged buffer: with no intervening
writes, the snapshot after the second `show()` equals the snapshot after
the first. -/
theorem c5_show_idempotent (s : Adafruit_NeoPixel) :
    (Adafruit_NeoPixel.«show» ((Adafruit_NeoPixel.«show» s).1)).1.getDisplayed
      = ((Adafruit_NeoPixel.«show» s).1).getDisplayed :=
  rfl

/-- C6: immediately after construction with `N` pixels, `numPixels()`
returns `N`, `getPixelColor(i)` returns 0 for every `i` in `[0, N)`, and
`getDisplayed()` is `N` entries all equal to black. -/
theorem c6_fresh_strip (N : Nat) :
    (Adafruit_NeoPixel.init N).numPixels = N ∧
    (∀ i : Int, 0 ≤ i → i < (N : Int) →
      (Adafruit_NeoPixel.init N).getPixelColor i = Except.ok 0) ∧
    (Adafruit_NeoPixel.init N).getDisplayed = List.replicate N (0, 0, 0) := by
  refine ⟨by simp [Adafruit_NeoPixel.init, Adafruit_NeoPixel.numPixels], ?_, rfl⟩
  intro i h0 hN
  unfold Adafruit_NeoPixel.getPixelColor
  have hL : (Adafruit_NeoPixel.init N).buffer.length = N := by
    simp [Adafruit_NeoPixel.init]
  rw [pyIndex_nonneg h0 (by rw [hL]; exact hN)]
  show Except.ok ((Adafruit_NeoPixel.init N).buffer.getD i.toNat 0) = Except.ok 0
  simp only [Adafruit_NeoPixel.init, List.getD_eq_getElem?_getD,
    List.getElem?_replicate]
  split <;> rfl

/-- Witness for C6 at `N = 3`, `i = 1`. -/
theorem c6_witness :
    (Adafruit_NeoPixel.init 3).numPixels = 3 ∧
    (Adafruit_NeoPixel.init 3).getPixelColor 1 = Except.ok 0 ∧
    (Adafruit_NeoPixel.init 3).getDisplayed = List.replicate 3 (0, 0, 0) :=
  ⟨(c6_fresh_strip 3).1, (c6_fresh_strip 3).2.1 1 (by decide) (by decide),
    (c6_fresh_strip 3).2.2⟩

/-- C9: when `show()` runs before `begin()` has ever been called (so
`self._sim` does not exist), the call fails, but the snapshot has already
been replaced: `getDisplayed()` afterwards returns the freshly decoded
buffer, so `show()` is not atomic on this error path. -/
theorem c9_show_before_begin (s : Adafruit_NeoPixel) (h : s.simStarted = false) :
    (Adafruit_NeoPixel.«show» s).2 = Except.error PyErr.attributeError ∧
    (Adafruit_NeoPixel.«show» s).1.getDisplayed = s.buffer.map decodeColor := by
  constructor
  · simp [Adafruit_NeoPixel.«show», h]
  · rfl

/-- Witness for C9 at the freshly constructed strip `init 1`. -/
theorem c9_witness :
    (Adafruit_NeoPixel.«show» (Adafruit_NeoPixel.init 1)).2
        = Except.error PyErr.attributeError ∧
    (Adafruit_NeoPixel.«show» (Adafruit_NeoPixel.init 1)).1.getDisplayed
        = (Adafruit_NeoPixel.init 1).buffer.map decodeColor :=
  c9_show_before_begin (Adafruit_NeoPixel.init 1) rfl

/-- C3 counterexample: on a strip of 2 pixels the index `-1` lies outside
`[0, 2)`, yet `setPixelColor`, `getPixelColor` and `setPixelColorRGB` all
succeed instead of failing with `IndexOutOfRange`: a negative index
aliases a pixel from the end of the buffer. -/
theorem c3_counterexample :
    (Adafruit_NeoPixel.init 2).setPixelColor (-1) 7
        = Except.ok
          { buffer := [0, 7], displayed := [(0,0,0),(0,0,0)], simStarted := false } ∧
    (Adafruit_NeoPixel.init 2).getPixelColor (-1) = Except.ok 0 ∧
    (Adafruit_NeoPixel.init 2).setPixelColorRGB (-1) 1 2 3 0
        = Except.ok
          { buffer := [0, Color 1 2 3 0], displayed := [(0,0,0),(0,0,0)],
            simStarted := false } :=
  ⟨rfl, rfl, rfl⟩

/-- C3 amended: each of `setPixelColor`, `getPixelColor` and
`setPixelColorRGB` fails with `IndexOutOfRange` exactly when the index is
at or above `count` or strictly below `-count`: outside `[-count, count)`
all three calls fail with that error, inside it all three succeed, and a
negative index `n` in `[-count, 0)` silently aliases the pixel
`count + n` from the end (the write lands in cell `count + n` and the
read returns that cell).  `IndexOutOfRange` is the only error kind any of
these indexed accessors and mutators ever raises. -/
theorem c3_amended_out_of_range_errors
    (s : Adafruit_NeoPixel) (n : Int) (c red green blue white : Nat) :
    ((n < -(s.numPixels : Int) ∨ (s.numPixels : Int) ≤ n) →
      s.setPixelColor n c = Except.error PyErr.indexOutOfRange ∧
      s.getPixelColor n = Except.error PyErr.indexOutOfRange ∧
      s.setPixelColorRGB n red green blue white
        = Except.error PyErr.indexOutOfRange) ∧
    (-(s.numPixels : Int) ≤ n → n < (s.numPixels : Int) →
      (∃ t, s.setPixelColor n c = Except.ok t) ∧
      (∃ v, s.getPixelColor n = Except.ok v) ∧
      (∃ t, s.setPixelColorRGB n red green blue white = Except.ok t)) ∧
    (-(s.numPixels : Int) ≤ n → n < 0 →
      s.setPixelColor n c = Except.ok
        { s with buffer := s.buffer.set ((s.numPixels : Int) + n).toNat c } ∧
      s.getPixelColor n = Except.ok
        (s.buffer.getD ((s.numPixels : Int) + n).toNat 0)) ∧
    (∀ m : Int, ∀ e, s.setPixelColor m c = Except.error e
        → e = PyErr.indexOutOfRange) ∧
    (∀ m : Int, ∀ e, s.getPixelColor m = Except.error e
        → e = PyErr.indexOutOfRange) ∧
    (∀ m : Int, ∀ e, s.setPixelColorRGB m red green blue white = Except.error e
        → e = PyErr.indexOutOfRange) := by
  have hL : s.numPixels = s.buffer.length := rfl
  have hset : ∀ m : Int, ∀ cc : Nat, ∀ e, s.setPixelColor m cc = Except.error e
      → e = PyErr.indexOutOfRange := by
    intro m cc e he
    unfold Adafruit_NeoPixel.setPixelColor at he
    cases hm : pyIndex s.buffer.length m with
    | some k => rw [hm] at he; cases he
    | none => rw [hm] at he; exact (Except.error.inj he).symm
  have hget : ∀ m : Int, ∀ e, s.getPixelColor m = Except.error e
      → e = PyErr.indexOutOfRange := by
    intro m e he
    unfold Adafruit_NeoPixel.getPixelColor at he
    cases hm : pyIndex s.buffer.length m with
    | some k => rw [hm] at he; cases he
    | none => rw [hm] at he; exact (Except.error.inj he).symm
  refine ⟨?_, ?_, ?_, fun m e => hset m c e, hget,
    fun m e => hset m (Color red green blue white) e⟩
  · intro h
    have hp : pyIndex s.buffer.length n = none := pyIndex_none h
    refine ⟨?_, ?_, ?_⟩
    · unfold Adafruit_NeoPixel.setPixelColor
      rw [hp]
    · unfold Adafruit_NeoPixel.getPixelColor
      rw [hp]
    · unfold Adafruit_NeoPixel.setPixelColorRGB Adafruit_NeoPixel.setPixelColor
      rw [hp]
  · intro hlo hhi
    rw [hL] at hlo hhi
    have hsome : ∃ i, pyIndex s.buffer.length n = some i := by
      rcases le_or_lt 0 n with h0 | h0
      · exact ⟨_, pyIndex_nonneg h0 hhi⟩
      · exact ⟨_, pyIndex_neg h0 (by omega)⟩
    obtain ⟨i, hi⟩ := hsome
    refine ⟨?_, ?_, ?_⟩
    · unfold Adafruit_NeoPixel.setPixelColor
      rw [hi]
      exact ⟨_, rfl⟩
    · unfold Adafruit_NeoPixel.getPixelColor
      rw [hi]
      exact ⟨_, rfl⟩
    · unfold Adafruit_NeoPixel.setPixelColorRGB Adafruit_NeoPixel.setPixelColor
      rw [hi]
      exact ⟨_, rfl⟩
  · intro hlo hneg
    rw [hL] at hlo
    have e1 : pyIndex s.buffer.length n
        = some ((s.numPixels : Int) + n).toNat := by
      rw [pyIndex_neg hneg (by omega), hL]
      congr 1
      omega
    constructor
    · unfold Adafruit_NeoPixel.setPixelColor
      rw [e1]
    · unfold Adafruit_NeoPixel.getPixelColor
      rw [e1]

/-- Witness for the amended C3 at the strip `init 2`: index 5 fails with
`IndexOutOfRange` on all three operations, and index `-1` succeeds,
aliasing pixel 1. -/
theorem c3_amended_witness :
    (Adafruit_NeoPixel.init 2).setPixelColor 5 7
        = Except.error PyErr.indexOutOfRange ∧
    (Adafruit_NeoPixel.init 2).getPixelColor 5
        = Except.error PyErr.indexOutOfRange ∧
    (Adafruit_NeoPixel.init 2).setPixelColorRGB 5 1 2 3 0
        = Except.error PyErr.indexOutOfRange ∧
    (∃ v, (Adafruit_NeoPixel.init 2).getPixelColor (-1) = Except.ok v) ∧
    (Adafruit_NeoPixel.init 2).setPixelColor (-1) 7
        = Except.ok
          { buffer := [0, 7], displayed := [(0,0,0),(0,0,0)], simStarted := false } :=
  ⟨((c3_amended_out_of_range_errors (Adafruit_NeoPixel.init 2) 5 7 1 2 3 0).1
      (Or.inr (by decide))).1,
    ((c3_amended_out_of_range_errors (Adafruit_NeoPixel.init 2) 5 7 1 2 3 0).1
      (Or.inr (by decide))).2.1,
    ((c3_amended_out_of_range_errors (Adafruit_NeoPixel.init 2) 5 7 1 2 3 0).1
      (Or.inr (by decide))).2.2,
    ((c3_amended_out_of_range_errors (Adafruit_NeoPixel.init 2) (-1) 7 1 2 3 0).2.1
      (by decide) (by decide)).2.1,
    ((c3_amended_out_of_range_errors (Adafruit_NeoPixel.init 2) (-1) 7 1 2 3 0).2.2.1
      (by decide) (by decide)).1⟩

/-- C4 counterexample: on a strip of 2 pixels with a pending unpublished
write to pixel 1, the call `setPixelColorRGB(0, 10, 20, 30)` followed by
`show()` changes `getDisplayed()[1]` (from black to `(5, 5, 5)`), because
`show()` publishes every pending write, not only the one to pixel 0. -/
theorem c4_counterexample :
    (Adafruit_NeoPixel.getDisplayed
        (run (Adafruit_NeoPixel.init 2) [Op.setPixelColorRGBOp 1 5 5 5 0]))[1]?
      = some (0, 0, 0) ∧
    (Adafruit_NeoPixel.getDisplayed
        (run (Adafruit_NeoPixel.init 2)
          [Op.setPixelColorRGBOp 1 5 5 5 0, Op.setPixelColorRGBOp 0 10 20 30 0,
           Op.showOp]))[1]?
      = some (5, 5, 5) ∧
    some ((0 : Nat), (0 : Nat), (0 : Nat)) ≠ some ((5 : Nat), (5 : Nat), (5 : Nat)) :=
  ⟨rfl, rfl, by decide⟩

/-- C4 amended: when the snapshot is in sync with the buffer before the
call (no pending unpublished writes), `setPixelColorRGB(i, 10, 20, 30)`
followed by `show()` makes `getDisplayed()[i] = (10, 20, 30)` and leaves
`getDisplayed()[j]` unchanged for every `j ≠ i`. -/
theorem c4_amended_targeted_write
    (s s' : Adafruit_NeoPixel) (i : Nat) (hi : i < s.numPixels)
    (hsync : s.displayed = s.buffer.map decodeColor)
    (hset : s.setPixelColorRGB (i : Int) 10 20 30 0 = Except.ok s') :
    ((Adafruit_NeoPixel.«show» s').1.getDisplayed)[i]? = some (10, 20, 30) ∧
    (∀ j : Nat, j ≠ i →
      ((Adafruit_NeoPixel.«show» s').1.getDisplayed)[j]? = (s.getDisplayed)[j]?) := by
  obtain ⟨k, hk, hs'⟩ := setPixelColor_ok hset
  rw [pyIndex_nonneg (by omega) (by exact_mod_cast hi)] at hk
  injection hk with hk
  subst hk
  subst hs'
  have hi' : i < s.buffer.length := hi
  constructor
  · show ((s.buffer.set (((i : Int)).toNat) (Color 10 20 30 0)).map
      decodeColor)[i]? = some (10, 20, 30)
    rw [Int.toNat_ofNat, List.getElem?_map, List.getElem?_set_self hi']
    show some (decodeColor (Color 10 20 30 0)) = some (10, 20, 30)
    rfl
  · intro j hj
    show ((s.buffer.set (((i : Int)).toNat) (Color 10 20 30 0)).map
      decodeColor)[j]? = (s.displayed)[j]?
    rw [Int.toNat_ofNat, List.getElem?_map,
      List.getElem?_set_ne (Ne.symm hj), hsync, List.getElem?_map]

/-- Witness for the amended C4 at the freshly constructed strip `init 2`,
writing pixel 0 and checking pixel 1. -/
theorem c4_amended_witness :
    ((Adafruit_NeoPixel.«show»
        { buffer := [Color 10 20 30 0, 0], displayed := [(0,0,0),(0,0,0)],
          simStarted := false }).1.getDisplayed)[0]? = some (10, 20, 30) ∧
    ((Adafruit_NeoPixel.«show»
        { buffer := [Color 10 20 30 0, 0], displayed := [(0,0,0),(0,0,0)],
          simStarted := false }).1.getDisplayed)[1]?
      = ((Adafruit_NeoPixel.init 2).getDisplayed)[1]? :=
  ⟨(c4_amended_targeted_write (Adafruit_NeoPixel.init 2)
      { buffer := [Color 10 20 30 0, 0], displayed := [(0,0,0),(0,0,0)],
        simStarted := false } 0 (by decide) rfl rfl).1,
    (c4_amended_targeted_write (Adafruit_NeoPixel.init 2)
      { buffer := [Color 10 20 30 0, 0], displayed := [(0,0,0),(0,0,0)],
        simStarted := false } 0 (by decide) rfl rfl).2 1 (by decide)⟩

/-- C7: the pixel count is fixed for the buffer's lifetime: after any
sequence of API calls applied to a strip constructed with `N` pixels,
`numPixels()` still returns `N`. -/
theorem c7_numPixels_fixed (N : Nat) (ops : List Op) :
    (run (Adafruit_NeoPixel.init N) ops).numPixels = N := by
  show (run (Adafruit_NeoPixel.init N) ops).buffer.length = N
  rw [run_buffer_length]
  simp [Adafruit_NeoPixel.init]

/-- C8: a negative index `n` with `-count ≤ n < 0` does not fail:
`getPixelColor(n)` returns the same value as `getPixelColor(count + n)`
and `setPixelColor(n, c)` writes pixel `count + n`, silently aliasing
pixels from the end instead of raising an error. -/
theorem c8_negative_index_aliasing
    (s : Adafruit_NeoPixel) (n : Int) (c : Nat)
    (h₁ : -(s.numPixels : Int) ≤ n) (h₂ : n < 0) :
    s.getPixelColor n = s.getPixelColor ((s.numPixels : Int) + n) ∧
    (∃ v, s.getPixelColor n = Except.ok v) ∧
    s.setPixelColor n c = s.setPixelColor ((s.numPixels : Int) + n) c ∧
    (∃ s', s.setPixelColor n c = Except.ok s'
      ∧ s'.buffer = s.buffer.set ((s.numPixels : Int) + n).toNat c) := by
  have hL : s.numPixels = s.buffer.length := rfl
  have e1 : pyIndex s.buffer.length n = some ((s.numPixels : Int) + n).toNat := by
    rw [pyIndex_neg h₂ (by omega), hL]
    congr 1
    omega
  have e2 : pyIndex s.buffer.length ((s.numPixels : Int) + n)
      = some ((s.numPixels : Int) + n).toNat := by
    rw [hL] at h₁ ⊢
    exact pyIndex_nonneg (by omega) (by omega)
  refine ⟨?_, ?_, ?_, ?_⟩
  · unfold Adafruit_NeoPixel.getPixelColor
    rw [e1, e2]
  · unfold Adafruit_NeoPixel.getPixelColor
    rw [e1]
    exact ⟨_, rfl⟩
  · unfold Adafruit_NeoPixel.setPixelColor
    rw [e1, e2]
  · unfold Adafruit_NeoPixel.setPixelColor
    rw [e1]
    exact ⟨_, rfl, rfl⟩

/-- Witness for C8 at the strip `init 2` with index `-1`. -/
theorem c8_witness :
    (Adafruit_NeoPixel.init 2).getPixelColor (-1)
        = (Adafruit_NeoPixel.init 2).getPixelColor
            (((Adafruit_NeoPixel.init 2).numPixels : Int) + (-1)) ∧
    (∃ v, (Adafruit_NeoPixel.init 2).getPixelColor (-1) = Except.ok v) :=
  ⟨(c8_negative_index_aliasing (Adafruit_NeoPixel.init 2) (-1) 7
      (by decide) (by decide)).1,
    (c8_negative_index_aliasing (Adafruit_NeoPixel.init 2) (-1) 7
      (by decide) (by decide)).2.1⟩

/-- C10: the length of the sequence returned by `getDisplayed()` always
equals `numPixels()`: it holds at construction and is preserved by every
sequence of API calls. -/
theorem c10_displayed_length_invariant (N : Nat) (ops : List Op) :
    (Adafruit_NeoPixel.getDisplayed (run (Adafruit_NeoPixel.init N) ops)).length
      = (run (Adafruit_NeoPixel.init N) ops).numPixels := by
  show (run (Adafruit_NeoPixel.init N) ops).displayed.length
      = (run (Adafruit_NeoPixel.init N) ops).buffer.length
  exact run_displayed_length ops (by simp [Adafruit_NeoPixel.init])

end NeoSim
